import Mathlib

/-!
Shallow embedding of the Nova-launch token-factory contract
(`src/contracts/token-factory/src/{lib.rs, burn.rs, storage.rs, types.rs,
validation.rs}`) and proofs about its claims.

Addresses are modelled as natural numbers, `i128` amounts as `Int` with the
checked arithmetic of Rust made explicit (an out-of-range result is `none`),
and the Soroban key-value storage as a record of optional values and maps,
one field per `DataKey` variant.  `require_auth()` always succeeds in this
model (every caller is taken to have authenticated as itself); the
authorization *checks* of the contract (address comparisons) are modelled
faithfully.  A Rust `unwrap()` on missing storage is modelled by the
`Outcome.trap` result.  Event emission has no effect on storage and is
dropped.
-/

set_option maxRecDepth 100000

namespace NovaFactory

/-- Error codes from `types.rs` (`enum Error`), extended with the
consistency-diagnostic codes referenced by `validation.rs`. -/
inductive Error where
  | InsufficientFee
  | Unauthorized
  | InvalidParameters
  | TokenNotFound
  | MetadataAlreadySet
  | AlreadyInitialized
  | InsufficientBalance
  | ArithmeticError
  | BatchTooLarge
  | InvalidAmount
  | ClawbackDisabled
  | InvalidBurnAmount
  | BurnAmountExceedsBalance
  | ContractPaused
  | MissingAdmin
  | MissingTreasury
  | InvalidBaseFee
  | InvalidMetadataFee
  | InconsistentTokenCount
  deriving DecidableEq, Repr

/-- Result of invoking a contract entry point: normal return, a returned
`Error` value, or a Rust panic (`unwrap` on absent storage). -/
inductive Outcome where
  | ok
  | err (e : Error)
  | trap
  deriving DecidableEq, Repr

/-- Lower bound of Rust `i128`. -/
def I128_MIN : Int := -(2 ^ 127)

/-- Upper bound of Rust `i128`. -/
def I128_MAX : Int := 2 ^ 127 - 1

/-- Rust `i128::checked_sub`: the difference when it fits in `i128`,
`none` on overflow. -/
def checked_sub (a b : Int) : Option Int :=
  if I128_MIN ≤ a - b ∧ a - b ≤ I128_MAX then some (a - b) else none

/-- Rust `i128::checked_add`: the sum when it fits in `i128`,
`none` on overflow. -/
def checked_add (a b : Int) : Option Int :=
  if I128_MIN ≤ a + b ∧ a + b ≤ I128_MAX then some (a + b) else none

/-- `TokenInfo` from `types.rs` (the source declares `total_burned` and
`burn_count` twice; they are one field each here). -/
structure TokenInfo where
  address : Nat
  creator : Nat
  name : String
  symbol : String
  decimals : Nat
  total_supply : Int
  initial_supply : Int
  total_burned : Int
  burn_count : Nat
  metadata_uri : Option String
  created_at : Nat
  clawback_enabled : Bool
  deriving DecidableEq, Repr

/-- The contract's key-value storage, one field per `DataKey` variant of
`types.rs`.  Absent keys are `none`. -/
structure Store where
  admin : Option Nat
  treasury : Option Nat
  base_fee : Option Int
  metadata_fee : Option Int
  token_count : Option Nat
  tokens : Nat → Option TokenInfo
  tokens_by_address : Nat → Option TokenInfo
  balances : Nat → Nat → Option Int
  burn_counts : Nat → Option Nat
  paused : Option Bool

/-- `storage::has_admin`. -/
def has_admin (s : Store) : Bool := s.admin.isSome

/-- `storage::set_admin`. -/
def set_admin (s : Store) (a : Nat) : Store := { s with admin := some a }

/-- `storage::set_treasury`. -/
def set_treasury (s : Store) (t : Nat) : Store := { s with treasury := some t }

/-- `storage::set_base_fee`. -/
def set_base_fee (s : Store) (fee : Int) : Store := { s with base_fee := some fee }

/-- `storage::set_metadata_fee`. -/
def set_metadata_fee (s : Store) (fee : Int) : Store := { s with metadata_fee := some fee }

/-- `storage::is_paused` (`unwrap_or(false)`). -/
def is_paused (s : Store) : Bool := s.paused.getD false

/-- `storage::set_paused`. -/
def set_paused (s : Store) (p : Bool) : Store := { s with paused := some p }

/-- `storage::get_balance` (`unwrap_or(0)`). -/
def get_balance (s : Store) (token_index holder : Nat) : Int :=
  (s.balances token_index holder).getD 0

/-- `storage::set_balance`. -/
def set_balance (s : Store) (token_index holder : Nat) (b : Int) : Store :=
  { s with balances := fun t h =>
      if t = token_index ∧ h = holder then some b else s.balances t h }

/-- `storage::set_token_info` (the token-registered event it emits has no
effect on storage). -/
def set_token_info (s : Store) (index : Nat) (info : TokenInfo) : Store :=
  { s with tokens := fun i => if i = index then some info else s.tokens i }

/-- `storage::set_token_info_by_address`. -/
def set_token_info_by_address (s : Store) (addr : Nat) (info : TokenInfo) : Store :=
  { s with tokens_by_address := fun a => if a = addr then some info else s.tokens_by_address a }

/-- `storage::get_burn_count` (`unwrap_or(0)`). -/
def get_burn_count (s : Store) (token_index : Nat) : Nat :=
  (s.burn_counts token_index).getD 0

/-- `storage::increment_burn_count`. -/
def increment_burn_count (s : Store) (token_index : Nat) : Store :=
  { s with burn_counts := fun t =>
      if t = token_index then some (get_burn_count s token_index + 1) else s.burn_counts t }

/-- `burn.rs::validate_amount`: rejects non-positive amounts with
`InvalidParameters`. -/
def validate_amount (amount : Int) : Except Error Unit :=
  if amount ≤ 0 then Except.error Error.InvalidParameters else Except.ok ()

/-- `validation.rs::validate_fees`: base fee first, then metadata fee;
`unwrap()` on an absent fee is a trap. -/
def validate_fees (s : Store) : Outcome :=
  match s.base_fee with
  | none => Outcome.trap
  | some bf =>
    if bf < 0 then Outcome.err Error.InvalidBaseFee
    else
      match s.metadata_fee with
      | none => Outcome.trap
      | some mf =>
        if mf < 0 then Outcome.err Error.InvalidMetadataFee else Outcome.ok

/-- `burn.rs::burn`: self-service burn from the caller's own balance. -/
def burn (s : Store) (caller token_index : Nat) (amount : Int) : Outcome × Store :=
  match validate_amount amount with
  | Except.error e => (Outcome.err e, s)
  | Except.ok _ =>
    match s.tokens token_index with
    | none => (Outcome.err Error.TokenNotFound, s)
    | some info =>
      let balance := get_balance s token_index caller
      if balance < amount then (Outcome.err Error.InsufficientBalance, s)
      else
        match checked_sub balance amount with
        | none => (Outcome.err Error.ArithmeticError, s)
        | some new_balance =>
          match checked_sub info.total_supply amount with
          | none => (Outcome.err Error.ArithmeticError, s)
          | some new_supply =>
            let s1 := set_balance s token_index caller new_balance
            let s2 := set_token_info s1 token_index { info with total_supply := new_supply }
            (Outcome.ok, increment_burn_count s2 token_index)

/-- `burn.rs::admin_burn`: burn from `holder`'s balance; the caller must
equal the *stored admin* (`storage::get_admin`), and `validate_address`
of the source always succeeds. -/
def admin_burn (s : Store) (caller token_index holder : Nat) (amount : Int) :
    Outcome × Store :=
  match s.admin with
  | none => (Outcome.trap, s)
  | some current_admin =>
    if caller ≠ current_admin then (Outcome.err Error.Unauthorized, s)
    else
      match validate_amount amount with
      | Except.error e => (Outcome.err e, s)
      | Except.ok _ =>
        match s.tokens token_index with
        | none => (Outcome.err Error.TokenNotFound, s)
        | some info =>
          let balance := get_balance s token_index holder
          if balance < amount then (Outcome.err Error.InsufficientBalance, s)
          else
            match checked_sub balance amount with
            | none => (Outcome.err Error.ArithmeticError, s)
            | some new_balance =>
              match checked_sub info.total_supply amount with
              | none => (Outcome.err Error.ArithmeticError, s)
              | some new_supply =>
                let s1 := set_balance s token_index holder new_balance
                let s2 := set_token_info s1 token_index { info with total_supply := new_supply }
                (Outcome.ok, increment_burn_count s2 token_index)

/-- The validation pass of `burn.rs::batch_burn`: per-entry amount and
balance checks against the *unmutated* store, accumulating the total with
checked addition. -/
def validate_pass (s : Store) (token_index : Nat) :
    List (Nat × Int) → Int → Except Error Int
  | [], acc => Except.ok acc
  | (holder, amount) :: rest, acc =>
    match validate_amount amount with
    | Except.error e => Except.error e
    | Except.ok _ =>
      if get_balance s token_index holder < amount then
        Except.error Error.InsufficientBalance
      else
        match checked_add acc amount with
        | none => Except.error Error.ArithmeticError
        | some acc2 => validate_pass s token_index rest acc2

/-- The mutation pass of `burn.rs::batch_burn`: decrement each holder's
(current) balance in order; a failing checked subtraction stops the pass
with the writes made so far kept. -/
def mutate_pass (token_index : Nat) : Store → List (Nat × Int) → Option Error × Store
  | s, [] => (none, s)
  | s, (holder, amount) :: rest =>
    match checked_sub (get_balance s token_index holder) amount with
    | none => (some Error.ArithmeticError, s)
    | some nb => mutate_pass token_index (set_balance s token_index holder nb) rest

/-- `burn.rs::batch_burn`: admin-gated two-pass batch burn with the
`MAX_BATCH_BURN = 100` cap. -/
def batch_burn (s : Store) (caller token_index : Nat)
    (burns : List (Nat × Int)) : Outcome × Store :=
  match s.admin with
  | none => (Outcome.trap, s)
  | some current_admin =>
    if caller ≠ current_admin then (Outcome.err Error.Unauthorized, s)
    else if burns.length > 100 then (Outcome.err Error.BatchTooLarge, s)
    else if burns.isEmpty then (Outcome.err Error.InvalidParameters, s)
    else
      match s.tokens token_index with
      | none => (Outcome.err Error.TokenNotFound, s)
      | some info =>
        match validate_pass s token_index burns 0 with
        | Except.error e => (Outcome.err e, s)
        | Except.ok total_burn =>
          if info.total_supply < total_burn then (Outcome.err Error.InsufficientBalance, s)
          else
            match mutate_pass token_index s burns with
            | (some e, s2) => (Outcome.err e, s2)
            | (none, s2) =>
              match checked_sub info.total_supply total_burn with
              | none => (Outcome.err Error.ArithmeticError, s2)
              | some new_supply =>
                let s3 := set_token_info s2 token_index { info with total_supply := new_supply }
                (Outcome.ok, increment_burn_count s3 token_index)

/-- `lib.rs` contract constructor (the `TokenFactory` entry point named
after the initialization of the registry): guards on an existing admin,
rejects negative fees, then stores admin, treasury and both fees.  The
`Paused` key is not written. -/
def init_factory (s : Store) (admin treasury : Nat) (base_fee metadata_fee : Int) :
    Outcome × Store :=
  if has_admin s then (Outcome.err Error.AlreadyInitialized, s)
  else if base_fee < 0 ∨ metadata_fee < 0 then (Outcome.err Error.InvalidParameters, s)
  else
    let s1 := set_admin s admin
    let s2 := set_treasury s1 treasury
    let s3 := set_base_fee s2 base_fee
    let s4 := set_metadata_fee s3 metadata_fee
    (Outcome.ok, s4)

/-- The tail of `lib.rs::update_fees` after the per-field writes: the
`validate_fees(&env)?` call. -/
def finish_update (s : Store) : Outcome × Store :=
  match validate_fees s with
  | Outcome.ok => (Outcome.ok, s)
  | Outcome.err e => (Outcome.err e, s)
  | Outcome.trap => (Outcome.trap, s)

/-- `lib.rs::update_fees`.  The source checks and *writes* the base fee
before it validates the metadata fee (the two `if let Some(fee)` blocks
run in sequence, each writing on its own); the nested match reproduces
that sequencing. -/
def update_fees (s : Store) (caller : Nat) (base_fee metadata_fee : Option Int) :
    Outcome × Store :=
  match s.admin with
  | none => (Outcome.trap, s)
  | some current_admin =>
    if caller ≠ current_admin then (Outcome.err Error.Unauthorized, s)
    else if base_fee.isNone && metadata_fee.isNone then (Outcome.err Error.InvalidParameters, s)
    else
      match base_fee with
      | some fee =>
        if fee < 0 then (Outcome.err Error.InvalidParameters, s)
        else
          let s1 := set_base_fee s fee
          match metadata_fee with
          | some fee2 =>
            if fee2 < 0 then (Outcome.err Error.InvalidParameters, s1)
            else finish_update (set_metadata_fee s1 fee2)
          | none => finish_update s1
      | none =>
        match metadata_fee with
        | some fee2 =>
          if fee2 < 0 then (Outcome.err Error.InvalidParameters, s)
          else finish_update (set_metadata_fee s fee2)
        | none => finish_update s

/-- `lib.rs::set_clawback`: pause gate first, then token lookup by address,
then the creator check, then the toggle. -/
def set_clawback (s : Store) (token_address caller : Nat) (enabled : Bool) :
    Outcome × Store :=
  if is_paused s then (Outcome.err Error.ContractPaused, s)
  else
    match s.tokens_by_address token_address with
    | none => (Outcome.err Error.TokenNotFound, s)
    | some info =>
      if info.creator ≠ caller then (Outcome.err Error.Unauthorized, s)
      else
        (Outcome.ok,
          set_token_info_by_address s token_address { info with clawback_enabled := enabled })

/-! ### Concrete states used as inputs to closed theorems -/

/-- The fresh, never-initialized store. -/
def empty_store : Store :=
  { admin := none, treasury := none, base_fee := none, metadata_fee := none,
    token_count := none, tokens := fun _ => none, tokens_by_address := fun _ => none,
    balances := fun _ _ => none, burn_counts := fun _ => none, paused := none }

/-- A freshly issued token, supply 1 000 000, nothing burned yet
(the spec's example token). -/
def token_fresh : TokenInfo :=
  { address := 100, creator := 1, name := "Test Token", symbol := "TST",
    decimals := 7, total_supply := 1000000, initial_supply := 1000000,
    total_burned := 0, burn_count := 0, metadata_uri := none, created_at := 0,
    clawback_enabled := true }

/-- Registry with admin 0, treasury 9, fees 70 000 000 / 30 000 000, token 0
being `token_fresh`, and holder 5 owning the whole supply. -/
def store_fresh : Store :=
  { admin := some 0, treasury := some 9, base_fee := some 70000000,
    metadata_fee := some 30000000, token_count := some 1,
    tokens := fun i => if i = 0 then some token_fresh else none,
    tokens_by_address := fun a => if a = 100 then some token_fresh else none,
    balances := fun t h => if t = 0 ∧ h = 5 then some 1000000 else none,
    burn_counts := fun _ => none, paused := none }

/-- Registry as left by a first successful configuration call with admin 1,
treasury 2, base fee 100 000 000, metadata fee 50 000 000. -/
def store_fees : Store :=
  { admin := some 1, treasury := some 2, base_fee := some 100000000,
    metadata_fee := some 50000000, token_count := none,
    tokens := fun _ => none, tokens_by_address := fun _ => none,
    balances := fun _ _ => none, burn_counts := fun _ => none, paused := none }

/-- Registry with admin 0 and a token (index 0) of supply 200 whose creator
is 3; holder 1 owns 100 of it. -/
def store_dup : Store :=
  { admin := some 0, treasury := some 9, base_fee := some 0,
    metadata_fee := some 0, token_count := some 1,
    tokens := fun i => if i = 0 then
        some { token_fresh with creator := 3, total_supply := 200, initial_supply := 200 }
      else none,
    tokens_by_address := fun _ => none,
    balances := fun t h => if t = 0 ∧ h = 1 then some 100 else none,
    burn_counts := fun _ => none, paused := none }

/-- Registry with admin 0 and token 0 of supply 1 000 000; holder 4 owns
100 000 and holder 6 owns only 50 (the spec's batch-burn example, A = 4,
B = 6). -/
def store_ab : Store :=
  { admin := some 0, treasury := some 9, base_fee := some 0,
    metadata_fee := some 0, token_count := some 1,
    tokens := fun i => if i = 0 then some token_fresh else none,
    tokens_by_address := fun _ => none,
    balances := fun t h =>
      if t = 0 ∧ h = 4 then some 100000
      else if t = 0 ∧ h = 6 then some 50 else none,
    burn_counts := fun _ => none, paused := none }

/-! ### Helper lemmas about the storage primitives -/

theorem checked_sub_eq_some {a b c : Int} (h : checked_sub a b = some c) :
    c = a - b := by
  unfold checked_sub at h
  split at h
  · exact (Option.some.inj h).symm
  · cases h

theorem get_balance_set_balance (s : Store) (t h : Nat) (b : Int) (t' h' : Nat) :
    get_balance (set_balance s t h b) t' h' =
      if t' = t ∧ h' = h then b else get_balance s t' h' := by
  by_cases hc : t' = t ∧ h' = h <;> simp [get_balance, set_balance, hc]

theorem get_balance_set_token_info (s : Store) (i : Nat) (info : TokenInfo)
    (t h : Nat) : get_balance (set_token_info s i info) t h = get_balance s t h := rfl

theorem get_balance_increment_burn_count (s : Store) (i t h : Nat) :
    get_balance (increment_burn_count s i) t h = get_balance s t h := rfl

/-! ### Claim theorems -/

/-- C1 — the claim fails on the code: from `store_fresh`, where
`total_supply + total_burned = initial_supply` holds (1 000 000 + 0), a
successful self-service burn of 100 000 leaves `total_supply = 900 000`
but `total_burned = 0`, so the conservation equation is broken in the
resulting state.  No burn entry point of `burn.rs` ever writes the
`total_burned` field. -/
theorem burn_breaks_supply_conservation :
    store_fresh.tokens 0 = some token_fresh ∧
    token_fresh.total_supply + token_fresh.total_burned = token_fresh.initial_supply ∧
    (burn store_fresh 5 0 100000).fst = Outcome.ok ∧
    (burn store_fresh 5 0 100000).snd.tokens 0 =
      some { token_fresh with total_supply := 900000 } ∧
    ¬ ((900000 : Int) + ({ token_fresh with total_supply := 900000 }).total_burned =
        ({ token_fresh with total_supply := 900000 }).initial_supply) := by
  refine ⟨rfl, by decide, ?_, ?_, by decide⟩
  · decide
  · decide

/-- C2 — the claim fails on the code: from `store_fees` (base fee
100 000 000, metadata fee 50 000 000), `update_fees(admin, Some 200 000 000,
Some (-100))` returns `InvalidParameters` but has already written the new
base fee: the store is *not* the store it started from.  This is the exact
input of the repository's own regression test
`regression_one_invalid_fails_all`. -/
theorem update_fees_partial_write :
    store_fees.base_fee = some 100000000 ∧
    (update_fees store_fees 1 (some 200000000) (some (-100))).fst =
      Outcome.err Error.InvalidParameters ∧
    (update_fees store_fees 1 (some 200000000) (some (-100))).snd.base_fee =
      some 200000000 ∧
    (update_fees store_fees 1 (some 200000000) (some (-100))).snd.metadata_fee =
      some 50000000 := by
  refine ⟨rfl, ?_, ?_, ?_⟩ <;> decide

/-- C6 — the claim fails on the code: the spec's example burn (supply
1 000 000, burn 100 000) does decrease the caller's balance and the supply
by 100 000 and does bump the `BurnCount` storage counter to 1, but
`total_burned` stays 0 instead of becoming 100 000 (and the `burn_count`
field of the record stays 0 as well; only the separate `BurnCount` key is
incremented). -/
theorem burn_does_not_update_total_burned :
    (burn store_fresh 5 0 100000).fst = Outcome.ok ∧
    get_balance store_fresh 0 5 = 1000000 ∧
    get_balance (burn store_fresh 5 0 100000).snd 0 5 = 900000 ∧
    (burn store_fresh 5 0 100000).snd.tokens 0 =
      some { token_fresh with total_supply := 900000 } ∧
    ({ token_fresh with total_supply := 900000 } : TokenInfo).total_burned = 0 ∧
    ({ token_fresh with total_supply := 900000 } : TokenInfo).burn_count = 0 ∧
    get_burn_count (burn store_fresh 5 0 100000).snd 0 = 1 := by
  refine ⟨?_, rfl, ?_, ?_, rfl, rfl, ?_⟩ <;> decide

/-- C3 counterexample — the claim ("only the token's creator may call
`admin_burn`; every other caller gets `Unauthorized`") is false: in
`store_fresh` token 0 was created by address 1, yet the *registry admin*
(address 0, different from the creator) successfully admin-burns 10 000
from holder 5. -/
theorem admin_burn_by_non_creator_succeeds :
    store_fresh.tokens 0 = some token_fresh ∧
    token_fresh.creator = 1 ∧
    (0 : Nat) ≠ 1 ∧
    (admin_burn store_fresh 0 0 5 10000).fst = Outcome.ok ∧
    get_balance (admin_burn store_fresh 0 0 5 10000).snd 0 5 = 990000 := by
  refine ⟨rfl, rfl, by decide, ?_, ?_⟩ <;> decide

/-- C4 counterexample — the claim is false for a `batch_burn` that mentions
the same holder twice: in `store_dup` every stored balance of token 0 is
non-negative (holder 1 owns 100, everyone else 0), yet the batch
[(1, 60), (1, 60)] *succeeds* — each entry is validated against the
unmutated balance 100 — and leaves holder 1's stored balance at −20. -/
theorem batch_burn_duplicate_holder_negative_balance :
    (∀ h, 0 ≤ get_balance store_dup 0 h) ∧
    get_balance store_dup 0 1 = 100 ∧
    (batch_burn store_dup 0 0 [(1, 60), (1, 60)]).fst = Outcome.ok ∧
    get_balance (batch_burn store_dup 0 0 [(1, 60), (1, 60)]).snd 0 1 = -20 := by
  refine ⟨?_, rfl, ?_, ?_⟩
  · intro h
    by_cases hh : h = 1 <;> simp [get_balance, store_dup, hh]
  · decide
  · decide

/-- C10 — confirmed: for every store (the token may not exist, balances may
be anything) and every `amount ≤ 0`, `burn` returns `InvalidParameters` and
the store is untouched: the amount check of `burn.rs` runs before the token
lookup and the balance read, so its error wins even when the token id is
unknown or the balance is insufficient, and no state is mutated. -/
theorem burn_rejects_nonpositive_amount (s : Store) (caller t : Nat) (a : Int)
    (ha : a ≤ 0) :
    burn s caller t a = (Outcome.err Error.InvalidParameters, s) := by
  simp [burn, validate_amount, ha]

/-- Witness for C10: burning 0 on the empty store (no token, no balance)
fails with `InvalidParameters` and changes nothing. -/
theorem burn_rejects_nonpositive_amount_w :
    (0 : Int) ≤ 0 ∧
    burn empty_store 3 0 0 = (Outcome.err Error.InvalidParameters, empty_store) :=
  ⟨le_refl 0, burn_rejects_nonpositive_amount empty_store 3 0 0 (le_refl 0)⟩

/-- C3 amended — `admin_burn` is gated on the *stored registry admin*, not
the token's creator: for every caller different from the stored admin
(including the token's creator when it is not the admin), `admin_burn`
returns `Unauthorized` and leaves the store exactly as it was. -/
theorem admin_burn_requires_stored_admin (s : Store) (adm caller t h : Nat)
    (a : Int) (hadm : s.admin = some adm) (hne : caller ≠ adm) :
    admin_burn s caller t h a = (Outcome.err Error.Unauthorized, s) := by
  simp [admin_burn, hadm, hne]

/-- Witness for the amended C3: in `store_fresh` (stored admin 0, token 0
created by 1) the creator itself, address 1 ≠ 0, is rejected with
`Unauthorized`. -/
theorem admin_burn_requires_stored_admin_w :
    store_fresh.admin = some 0 ∧ (1 : Nat) ≠ 0 ∧
    admin_burn store_fresh 1 0 5 10 = (Outcome.err Error.Unauthorized, store_fresh) :=
  ⟨rfl, by decide,
    admin_burn_requires_stored_admin store_fresh 0 1 0 5 10 rfl (by decide)⟩

/-- C7 — confirmed: the registry can be configured at most once.  When an
admin is already stored, every call returns `AlreadyInitialized` and leaves
the store untouched; a first call with a negative fee returns
`InvalidParameters` and stores nothing; a first call with non-negative fees
succeeds, stores exactly the given admin, treasury and fees, does not touch
the `Paused` key (so `is_paused` — false on a fresh store — is
unchanged), and leaves the store guarded against any later call. -/
theorem init_factory_once (s : Store) (a t : Nat) (b m : Int) :
    (has_admin s = true →
       init_factory s a t b m = (Outcome.err Error.AlreadyInitialized, s)) ∧
    (has_admin s = false → (b < 0 ∨ m < 0) →
       init_factory s a t b m = (Outcome.err Error.InvalidParameters, s)) ∧
    (has_admin s = false → 0 ≤ b → 0 ≤ m →
       (init_factory s a t b m).fst = Outcome.ok ∧
       (init_factory s a t b m).snd.admin = some a ∧
       (init_factory s a t b m).snd.treasury = some t ∧
       (init_factory s a t b m).snd.base_fee = some b ∧
       (init_factory s a t b m).snd.metadata_fee = some m ∧
       (init_factory s a t b m).snd.paused = s.paused ∧
       is_paused (init_factory s a t b m).snd = is_paused s ∧
       has_admin (init_factory s a t b m).snd = true) := by
  refine ⟨?_, ?_, ?_⟩
  · intro h
    simp [init_factory, h]
  · intro h hneg
    simp [init_factory, h, hneg]
  · intro h hb hm
    have h' : s.admin.isSome = false := h
    have hneg : ¬ (b < 0 ∨ m < 0) := by omega
    simp [init_factory, has_admin, h', hneg, set_admin, set_treasury,
      set_base_fee, set_metadata_fee, is_paused]

/-- Witness for C7: a first call on the fresh store with the spec's fees
succeeds and stores them with `is_paused = false`; a second call (any
arguments) returns `AlreadyInitialized` on the unchanged store; a fresh
call with a negative base fee stores nothing. -/
theorem init_factory_once_w :
    has_admin empty_store = false ∧
    (init_factory empty_store 1 2 70000000 30000000).fst = Outcome.ok ∧
    (init_factory empty_store 1 2 70000000 30000000).snd.admin = some 1 ∧
    (init_factory empty_store 1 2 70000000 30000000).snd.treasury = some 2 ∧
    (init_factory empty_store 1 2 70000000 30000000).snd.base_fee = some 70000000 ∧
    (init_factory empty_store 1 2 70000000 30000000).snd.metadata_fee = some 30000000 ∧
    is_paused (init_factory empty_store 1 2 70000000 30000000).snd = false ∧
    init_factory (init_factory empty_store 1 2 70000000 30000000).snd 3 4 5 6 =
      (Outcome.err Error.AlreadyInitialized,
        (init_factory empty_store 1 2 70000000 30000000).snd) ∧
    init_factory empty_store 1 2 (-1) 0 =
      (Outcome.err Error.InvalidParameters, empty_store) := by
  have h3 := (init_factory_once empty_store 1 2 70000000 30000000).2.2 rfl
    (by decide) (by decide)
  have h1 := (init_factory_once (init_factory empty_store 1 2 70000000 30000000).snd
    3 4 5 6).1 h3.2.2.2.2.2.2.2
  have h2 := (init_factory_once empty_store 1 2 (-1) 0).2.1 rfl (Or.inl (by decide))
  refine ⟨rfl, h3.1, h3.2.1, h3.2.2.1, h3.2.2.2.1, h3.2.2.2.2.1, ?_, h1, h2⟩
  calc is_paused (init_factory empty_store 1 2 70000000 30000000).snd
      = is_paused empty_store := h3.2.2.2.2.2.2.1
    _ = false := rfl

/-- C9 — confirmed: `set_clawback` fails with `ContractPaused` whenever the
registry is paused, before any other check (for every caller and token,
even when the token does not exist); for an existing token and an unpaused
registry it fails with `Unauthorized` whenever the caller is not the
token's creator, and otherwise succeeds, setting `clawback_enabled` to the
given value, with a re-toggle by the creator succeeding again (no limit on
toggling). -/
theorem set_clawback_spec (s : Store) (ta c : Nat) (e : Bool) :
    (is_paused s = true →
       set_clawback s ta c e = (Outcome.err Error.ContractPaused, s)) ∧
    (is_paused s = false → ∀ info, s.tokens_by_address ta = some info →
       info.creator ≠ c →
       set_clawback s ta c e = (Outcome.err Error.Unauthorized, s)) ∧
    (is_paused s = false → ∀ info, s.tokens_by_address ta = some info →
       info.creator = c →
       (set_clawback s ta c e).fst = Outcome.ok ∧
       (set_clawback s ta c e).snd.tokens_by_address ta =
         some { info with clawback_enabled := e } ∧
       is_paused (set_clawback s ta c e).snd = is_paused s ∧
       (∀ e2, (set_clawback (set_clawback s ta c e).snd ta c e2).fst =
          Outcome.ok)) := by
  refine ⟨?_, ?_, ?_⟩
  · intro h
    simp [set_clawback, h]
  · intro h info hinfo hne
    simp [set_clawback, h, hinfo, hne]
  · intro h info hinfo hcr
    have hsnd : (set_clawback s ta c e).snd =
        set_token_info_by_address s ta { info with clawback_enabled := e } := by
      simp [set_clawback, h, hinfo, hcr]
    have h' : s.paused.getD false = false := h
    refine ⟨by simp [set_clawback, h, hinfo, hcr], ?_, ?_, ?_⟩
    · rw [hsnd]
      simp [set_token_info_by_address]
    · rw [hsnd]
      rfl
    · intro e2
      rw [hsnd]
      simp [set_clawback, set_token_info_by_address, is_paused, h', hcr]

/-- Witness for C9: on `store_fresh` (unpaused, token at address 100 created
by 1) a paused variant rejects everyone with `ContractPaused`; the
non-creator 7 is rejected with `Unauthorized`; the creator 1 toggles
clawback off, and can immediately toggle it again. -/
theorem set_clawback_spec_w :
    is_paused (set_paused store_fresh true) = true ∧
    set_clawback (set_paused store_fresh true) 100 1 false =
      (Outcome.err Error.ContractPaused, set_paused store_fresh true) ∧
    is_paused store_fresh = false ∧
    store_fresh.tokens_by_address 100 = some token_fresh ∧
    token_fresh.creator ≠ 7 ∧
    set_clawback store_fresh 100 7 false =
      (Outcome.err Error.Unauthorized, store_fresh) ∧
    (set_clawback store_fresh 100 1 false).fst = Outcome.ok ∧
    (set_clawback store_fresh 100 1 false).snd.tokens_by_address 100 =
      some { token_fresh with clawback_enabled := false } ∧
    (∀ e2, (set_clawback (set_clawback store_fresh 100 1 false).snd 100 1 e2).fst =
       Outcome.ok) := by
  have hp := (set_clawback_spec (set_paused store_fresh true) 100 1 false).1 rfl
  have hu := (set_clawback_spec store_fresh 100 7 false).2.1 rfl token_fresh rfl
    (by decide)
  have hs := (set_clawback_spec store_fresh 100 1 false).2.2 rfl token_fresh rfl rfl
  exact ⟨rfl, hp, rfl, rfl, by decide, hu, hs.1, hs.2.1, hs.2.2.2⟩

theorem finish_update_snd (s : Store) : (finish_update s).snd = s := by
  unfold finish_update
  split <;> rfl

/-- C8 — confirmed: a successful `update_fees` by the stored admin updates
only the supplied fields (a `none` field keeps its stored value, a
`some v` field becomes `v`), and never touches admin, treasury or the
pause flag; the call fails with `InvalidParameters` when both arguments
are `none` or when any supplied fee is negative. -/
theorem update_fees_spec (s : Store) (c : Nat) (bf mf : Option Int)
    (hadm : s.admin = some c) :
    ((update_fees s c bf mf).fst = Outcome.ok →
       ((update_fees s c bf mf).snd.admin = s.admin ∧
        (update_fees s c bf mf).snd.treasury = s.treasury ∧
        (update_fees s c bf mf).snd.paused = s.paused ∧
        (bf = none → (update_fees s c bf mf).snd.base_fee = s.base_fee) ∧
        (mf = none → (update_fees s c bf mf).snd.metadata_fee = s.metadata_fee) ∧
        (∀ v, bf = some v → (update_fees s c bf mf).snd.base_fee = some v) ∧
        (∀ w, mf = some w → (update_fees s c bf mf).snd.metadata_fee = some w))) ∧
    (bf = none → mf = none →
       update_fees s c bf mf = (Outcome.err Error.InvalidParameters, s)) ∧
    (∀ v, bf = some v → v < 0 →
       (update_fees s c bf mf).fst = Outcome.err Error.InvalidParameters) ∧
    (∀ w, mf = some w → w < 0 →
       (update_fees s c bf mf).fst = Outcome.err Error.InvalidParameters) := by
  rcases bf with _ | v <;> rcases mf with _ | w
  · have hc : update_fees s c none none = (Outcome.err Error.InvalidParameters, s) := by
      simp [update_fees, hadm]
    refine ⟨?_, fun _ _ => hc, ?_, ?_⟩
    · rw [hc]
      intro h
      cases h
    · intro v hv
      simp at hv
    · intro w hw
      simp at hw
  · refine ⟨?_, ?_, ?_, ?_⟩
    · by_cases hw : w < 0
      · have hc : (update_fees s c none (some w)).fst =
            Outcome.err Error.InvalidParameters := by
          simp [update_fees, hadm, hw]
        rw [hc]
        intro h
        cases h
      · have hc : update_fees s c none (some w) =
            finish_update (set_metadata_fee s w) := by
          simp [update_fees, hadm, hw]
        rw [hc, finish_update_snd]
        intro _
        exact ⟨rfl, rfl, rfl, fun _ => rfl, fun h => by simp at h,
          fun v hv => by simp at hv, fun w' hw' => by cases hw'; rfl⟩
    · intro _ h
      simp at h
    · intro v hv
      simp at hv
    · intro w' hw' hlt
      cases hw'
      simp [update_fees, hadm, hlt]
  · refine ⟨?_, ?_, ?_, ?_⟩
    · by_cases hv : v < 0
      · have hc : (update_fees s c (some v) none).fst =
            Outcome.err Error.InvalidParameters := by
          simp [update_fees, hadm, hv]
        rw [hc]
        intro h
        cases h
      · have hc : update_fees s c (some v) none =
            finish_update (set_base_fee s v) := by
          simp [update_fees, hadm, hv]
        rw [hc, finish_update_snd]
        intro _
        exact ⟨rfl, rfl, rfl, fun h => by simp at h, fun _ => rfl,
          fun v' hv' => by cases hv'; rfl, fun w hw => by simp at hw⟩
    · intro h _
      simp at h
    · intro v' hv' hlt
      cases hv'
      simp [update_fees, hadm, hlt]
    · intro w hw
      simp at hw
  · refine ⟨?_, ?_, ?_, ?_⟩
    · by_cases hv : v < 0
      · have hc : (update_fees s c (some v) (some w)).fst =
            Outcome.err Error.InvalidParameters := by
          simp [update_fees, hadm, hv]
        rw [hc]
        intro h
        cases h
      · by_cases hw : w < 0
        · have hc : (update_fees s c (some v) (some w)).fst =
              Outcome.err Error.InvalidParameters := by
            simp [update_fees, hadm, hv, hw]
          rw [hc]
          intro h
          cases h
        · have hc : update_fees s c (some v) (some w) =
              finish_update (set_metadata_fee (set_base_fee s v) w) := by
            simp [update_fees, hadm, hv, hw]
          rw [hc, finish_update_snd]
          intro _
          exact ⟨rfl, rfl, rfl, fun h => by simp at h, fun h => by simp at h,
            fun v' hv' => by cases hv'; rfl, fun w' hw' => by cases hw'; rfl⟩
    · intro h _
      simp at h
    · intro v' hv' hlt
      cases hv'
      simp [update_fees, hadm, hlt]
    · intro w' hw' hlt
      cases hw'
      by_cases hv : v < 0
      · simp [update_fees, hadm, hv]
      · simp [update_fees, hadm, hv, hlt]

/-- Witness for C8: on `store_fees` (admin 1, fees 100 000 000/50 000 000)
a successful base-fee-only update changes the base fee to 200 000 000 and
keeps the metadata fee, admin, treasury and pause flag; the all-`none`
call and a negative-fee call fail with `InvalidParameters`. -/
theorem update_fees_spec_w :
    store_fees.admin = some 1 ∧
    (update_fees store_fees 1 (some 200000000) none).fst = Outcome.ok ∧
    (update_fees store_fees 1 (some 200000000) none).snd.base_fee = some 200000000 ∧
    (update_fees store_fees 1 (some 200000000) none).snd.metadata_fee =
      store_fees.metadata_fee ∧
    (update_fees store_fees 1 (some 200000000) none).snd.admin = store_fees.admin ∧
    (update_fees store_fees 1 (some 200000000) none).snd.treasury = store_fees.treasury ∧
    (update_fees store_fees 1 (some 200000000) none).snd.paused = store_fees.paused ∧
    update_fees store_fees 1 none none = (Outcome.err Error.InvalidParameters, store_fees) ∧
    (update_fees store_fees 1 none (some (-7))).fst = Outcome.err Error.InvalidParameters := by
  have hok : (update_fees store_fees 1 (some 200000000) none).fst = Outcome.ok := by decide
  have h1 := (update_fees_spec store_fees 1 (some 200000000) none rfl).1 hok
  have h2 := (update_fees_spec store_fees 1 none none rfl).2.1 rfl rfl
  have h3 := (update_fees_spec store_fees 1 none (some (-7)) rfl).2.2.2 (-7) rfl
    (by decide)
  exact ⟨rfl, hok, h1.2.2.2.2.2.1 200000000 rfl, h1.2.2.2.2.1 rfl, h1.1, h1.2.1,
    h1.2.2.1, h2, h3⟩

/-- If the validation pass of `batch_burn` accepts a list, then every entry
has a positive amount not exceeding that holder's balance in the
(unmutated) store the pass read from. -/
theorem validate_pass_ok_mem (s : Store) (t : Nat) :
    ∀ (l : List (Nat × Int)) (acc tot : Int),
      validate_pass s t l acc = Except.ok tot →
      ∀ p ∈ l, 0 < p.2 ∧ p.2 ≤ get_balance s t p.1 := by
  intro l
  induction l with
  | nil =>
    intro acc tot _ p hp
    cases hp
  | cons hd tl ih =>
    intro acc tot hv p hp
    obtain ⟨h0, a0⟩ := hd
    by_cases ha : a0 ≤ 0
    · simp [validate_pass, validate_amount, ha] at hv
    · by_cases hb : get_balance s t h0 < a0
      · simp [validate_pass, validate_amount, ha, hb] at hv
      · rcases hca : checked_add acc a0 with _ | acc2
        · simp [validate_pass, validate_amount, ha, hb, hca] at hv
        · simp only [validate_pass, validate_amount, if_neg ha, if_neg hb, hca] at hv
          rcases List.mem_cons.mp hp with hp | hp
          · subst hp
            exact ⟨not_le.mp ha, not_lt.mp hb⟩
          · exact ih acc2 tot hv p hp

/-- C5 — confirmed: `batch_burn` is all-or-nothing.  On an initialized
registry, whenever some entry of the list has a non-positive amount or an
amount exceeding that holder's stored balance, the call returns an error
and the resulting store is exactly the store it started from (no balance,
supply or burn counter changed). -/
theorem batch_burn_all_or_nothing (s : Store) (caller t : Nat)
    (entries : List (Nat × Int)) (p : Nat × Int)
    (hadm : s.admin.isSome = true) (hp : p ∈ entries)
    (hbad : p.2 ≤ 0 ∨ get_balance s t p.1 < p.2) :
    ∃ e, batch_burn s caller t entries = (Outcome.err e, s) := by
  obtain ⟨adm, ha⟩ := Option.isSome_iff_exists.mp hadm
  by_cases h1 : caller ≠ adm
  · exact ⟨Error.Unauthorized, by simp [batch_burn, ha, h1]⟩
  · by_cases h2 : entries.length > 100
    · exact ⟨Error.BatchTooLarge, by simp [batch_burn, ha, h1, h2]⟩
    · have h3 : entries.isEmpty = false := by
        cases entries with
        | nil => cases hp
        | cons x xs => rfl
      rcases ht : s.tokens t with _ | info
      · exact ⟨Error.TokenNotFound, by simp [batch_burn, ha, h1, h2, h3, ht]⟩
      · rcases hv : validate_pass s t entries 0 with e | tot
        · exact ⟨e, by simp [batch_burn, ha, h1, h2, h3, ht, hv]⟩
        · exfalso
          have := validate_pass_ok_mem s t entries 0 tot hv p hp
          rcases hbad with hbad | hbad <;> omega

/-- Witness for C5: the spec's example — entries [(4, 50 000), (6, 200)]
where holder 6 only owns 50 — fails (with `InsufficientBalance`) and
leaves `store_ab` exactly unchanged, in particular holder 4's balance and
the token's supply. -/
theorem batch_burn_all_or_nothing_w :
    store_ab.admin.isSome = true ∧
    ((6 : Nat), (200 : Int)) ∈ [((4 : Nat), (50000 : Int)), (6, 200)] ∧
    get_balance store_ab 0 6 < 200 ∧
    (∃ e, batch_burn store_ab 0 0 [(4, 50000), (6, 200)] =
       (Outcome.err e, store_ab)) ∧
    (batch_burn store_ab 0 0 [(4, 50000), (6, 200)]).fst =
      Outcome.err Error.InsufficientBalance := by
  refine ⟨rfl, by simp, by decide, ?_, by decide⟩
  exact batch_burn_all_or_nothing store_ab 0 0 [(4, 50000), (6, 200)] (6, 200)
    rfl (by simp) (Or.inr (by decide))

/-- The mutation pass of `batch_burn` keeps every balance of the token
non-negative, provided every entry's amount is covered by that holder's
balance in the starting store and no holder occurs twice. -/
theorem mutate_pass_nonneg (t : Nat) :
    ∀ (l : List (Nat × Int)) (s s2 : Store),
      (∀ p ∈ l, 0 < p.2 ∧ p.2 ≤ get_balance s t p.1) →
      (l.map Prod.fst).Nodup →
      (∀ h, 0 ≤ get_balance s t h) →
      mutate_pass t s l = (none, s2) →
      ∀ h, 0 ≤ get_balance s2 t h := by
  intro l
  induction l with
  | nil =>
    intro s s2 _ _ hnn hm h
    simp only [mutate_pass, Prod.mk.injEq, true_and] at hm
    subst hm
    exact hnn h
  | cons hd tl ih =>
    intro s s2 hcond hnd hnn hm h
    obtain ⟨h0, a0⟩ := hd
    rcases hcs : checked_sub (get_balance s t h0) a0 with _ | nb
    · simp [mutate_pass, hcs] at hm
    · simp only [mutate_pass, hcs] at hm
      have hnb := checked_sub_eq_some hcs
      have hhead : 0 < a0 ∧ a0 ≤ get_balance s t h0 :=
        hcond (h0, a0) (List.mem_cons_self _ _)
      have hnd2 : (h0 :: tl.map Prod.fst).Nodup := by simpa using hnd
      have hnotin : h0 ∉ tl.map Prod.fst := (List.nodup_cons.mp hnd2).1
      apply ih (set_balance s t h0 nb) s2 ?_ (List.nodup_cons.mp hnd2).2 ?_ hm h
      · intro p hp
        have hc : 0 < p.2 ∧ p.2 ≤ get_balance s t p.1 :=
          hcond p (List.mem_cons_of_mem _ hp)
        have hne : p.1 ≠ h0 := by
          intro he
          exact hnotin (he ▸ List.mem_map_of_mem Prod.fst hp)
        rw [get_balance_set_balance, if_neg]
        · exact hc
        · rintro ⟨-, h2⟩
          exact hne h2
      · intro h'
        rw [get_balance_set_balance]
        by_cases hc : t = t ∧ h' = h0
        · rw [if_pos hc]
          omega
        · rw [if_neg hc]
          exact hnn h'

/-- C4 amended — every per-holder balance of a token stays non-negative
under every successful `burn`, `admin_burn`, and every successful
`batch_burn` whose entry list mentions each holder at most once, starting
from a state in which every stored balance of that token is ≥ 0.  (For a
`batch_burn` entry list that mentions the same holder more than once the
property fails: each entry is validated against the unmutated balance, so
the combined burn can drive that holder's balance negative.) -/
theorem burns_preserve_nonneg_balances (s : Store) (t : Nat)
    (hnn : ∀ h, 0 ≤ get_balance s t h) :
    (∀ c a s', burn s c t a = (Outcome.ok, s') →
       ∀ h, 0 ≤ get_balance s' t h) ∧
    (∀ c hold a s', admin_burn s c t hold a = (Outcome.ok, s') →
       ∀ h, 0 ≤ get_balance s' t h) ∧
    (∀ c entries s', (entries.map Prod.fst).Nodup →
       batch_burn s c t entries = (Outcome.ok, s') →
       ∀ h, 0 ≤ get_balance s' t h) := by
  refine ⟨?_, ?_, ?_⟩
  · intro c a s' hok h
    by_cases ha : a ≤ 0
    · simp [burn, validate_amount, ha] at hok
    · rcases ht : s.tokens t with _ | info
      · simp [burn, validate_amount, ha, ht] at hok
      · by_cases hb : get_balance s t c < a
        · simp [burn, validate_amount, ha, ht, hb] at hok
        · rcases hcs : checked_sub (get_balance s t c) a with _ | nb
          · simp [burn, validate_amount, ha, ht, hb, hcs] at hok
          · rcases hcs2 : checked_sub info.total_supply a with _ | ns
            · simp [burn, validate_amount, ha, ht, hb, hcs, hcs2] at hok
            · have hcomp : burn s c t a = (Outcome.ok,
                  increment_burn_count (set_token_info (set_balance s t c nb) t
                    { info with total_supply := ns }) t) := by
                simp [burn, validate_amount, ha, ht, hb, hcs, hcs2]
              rw [hcomp] at hok
              have hs' : increment_burn_count (set_token_info (set_balance s t c nb) t
                  { info with total_supply := ns }) t = s' := congrArg Prod.snd hok
              subst hs'
              rw [get_balance_increment_burn_count, get_balance_set_token_info,
                get_balance_set_balance]
              have hnb := checked_sub_eq_some hcs
              by_cases hc : t = t ∧ h = c
              · rw [if_pos hc]
                omega
              · rw [if_neg hc]
                exact hnn h
  · intro c hold a s' hok h
    rcases hadm : s.admin with _ | adm
    · simp [admin_burn, hadm] at hok
    · by_cases h1 : c ≠ adm
      · simp [admin_burn, hadm, h1] at hok
      · by_cases ha : a ≤ 0
        · simp [admin_burn, hadm, h1, validate_amount, ha] at hok
        · rcases ht : s.tokens t with _ | info
          · simp [admin_burn, hadm, h1, validate_amount, ha, ht] at hok
          · by_cases hb : get_balance s t hold < a
            · simp [admin_burn, hadm, h1, validate_amount, ha, ht, hb] at hok
            · rcases hcs : checked_sub (get_balance s t hold) a with _ | nb
              · simp [admin_burn, hadm, h1, validate_amount, ha, ht, hb, hcs] at hok
              · rcases hcs2 : checked_sub info.total_supply a with _ | ns
                · simp [admin_burn, hadm, h1, validate_amount, ha, ht, hb, hcs,
                    hcs2] at hok
                · have hcomp : admin_burn s c t hold a = (Outcome.ok,
                      increment_burn_count (set_token_info (set_balance s t hold nb) t
                        { info with total_supply := ns }) t) := by
                    simp [admin_burn, hadm, h1, validate_amount, ha, ht, hb, hcs, hcs2]
                  rw [hcomp] at hok
                  have hs' : increment_burn_count
                      (set_token_info (set_balance s t hold nb) t
                        { info with total_supply := ns }) t = s' :=
                    congrArg Prod.snd hok
                  subst hs'
                  rw [get_balance_increment_burn_count, get_balance_set_token_info,
                    get_balance_set_balance]
                  have hnb := checked_sub_eq_some hcs
                  by_cases hc : t = t ∧ h = hold
                  · rw [if_pos hc]
                    omega
                  · rw [if_neg hc]
                    exact hnn h
  · intro c entries s' hnd hok h
    rcases hadm : s.admin with _ | adm
    · simp [batch_burn, hadm] at hok
    · by_cases h1 : c ≠ adm
      · simp [batch_burn, hadm, h1] at hok
      · by_cases h2 : entries.length > 100
        · simp [batch_burn, hadm, h1, h2] at hok
        · by_cases h3 : entries.isEmpty = true
          · simp [batch_burn, hadm, h1, h2, h3] at hok
          · rcases ht : s.tokens t with _ | info
            · simp [batch_burn, hadm, h1, h2, h3, ht] at hok
            · rcases hv : validate_pass s t entries 0 with e | tot
              · simp [batch_burn, hadm, h1, h2, h3, ht, hv] at hok
              · by_cases h4 : info.total_supply < tot
                · simp [batch_burn, hadm, h1, h2, h3, ht, hv, h4] at hok
                · rcases hmres : mutate_pass t s entries with ⟨oe, s2⟩
                  rcases oe with _ | e
                  · rcases hcs : checked_sub info.total_supply tot with _ | ns
                    · simp [batch_burn, hadm, h1, h2, h3, ht, hv, h4, hmres,
                        hcs] at hok
                    · have hcomp : batch_burn s c t entries = (Outcome.ok,
                          increment_burn_count (set_token_info s2 t
                            { info with total_supply := ns }) t) := by
                        simp [batch_burn, hadm, h1, h2, h3, ht, hv, h4, hmres, hcs]
                      rw [hcomp] at hok
                      have hs' : increment_burn_count (set_token_info s2 t
                          { info with total_supply := ns }) t = s' :=
                        congrArg Prod.snd hok
                      subst hs'
                      rw [get_balance_increment_burn_count, get_balance_set_token_info]
                      exact mutate_pass_nonneg t entries s s2
                        (validate_pass_ok_mem s t entries 0 tot hv) hnd hnn hmres h
                  · simp [batch_burn, hadm, h1, h2, h3, ht, hv, h4, hmres] at hok

/-- Witness for the amended C4: in `store_fresh` all balances of token 0
are ≥ 0; the successful burn of 100 000 by holder 5 and the successful
single-entry admin batch burn both leave every balance of token 0 ≥ 0. -/
theorem burns_preserve_nonneg_balances_w :
    (∀ h, 0 ≤ get_balance store_fresh 0 h) ∧
    burn store_fresh 5 0 100000 =
      (Outcome.ok, (burn store_fresh 5 0 100000).snd) ∧
    (∀ h, 0 ≤ get_balance (burn store_fresh 5 0 100000).snd 0 h) ∧
    ([((5 : Nat), (1000 : Int))].map Prod.fst).Nodup ∧
    batch_burn store_fresh 0 0 [(5, 1000)] =
      (Outcome.ok, (batch_burn store_fresh 0 0 [(5, 1000)]).snd) ∧
    (∀ h, 0 ≤ get_balance (batch_burn store_fresh 0 0 [(5, 1000)]).snd 0 h) := by
  have hnn : ∀ h, 0 ≤ get_balance store_fresh 0 h := by
    intro h
    by_cases hh : h = 5 <;> simp [get_balance, store_fresh, hh]
  have hok1 : burn store_fresh 5 0 100000 =
      (Outcome.ok, (burn store_fresh 5 0 100000).snd) := by
    have hf : (burn store_fresh 5 0 100000).fst = Outcome.ok := by decide
    rw [← hf]
  have hok2 : batch_burn store_fresh 0 0 [(5, 1000)] =
      (Outcome.ok, (batch_burn store_fresh 0 0 [(5, 1000)]).snd) := by
    have hf : (batch_burn store_fresh 0 0 [(5, 1000)]).fst = Outcome.ok := by decide
    rw [← hf]
  refine ⟨hnn, hok1,
    (burns_preserve_nonneg_balances store_fresh 0 hnn).1 5 100000 _ hok1,
    by simp, hok2,
    (burns_preserve_nonneg_balances store_fresh 0 hnn).2.2 0 [(5, 1000)] _
      (by simp) hok2⟩

end NovaFactory
